import Mathlib

/-!
Shallow embedding of the lox expression front end (src/scanner.rs,
src/parser.rs, src/interpreter.rs) and proofs about it.

Modelling conventions:
* Source bytes are `Nat` (the `u8` value); a source buffer is `List Nat`.
* Rust `f64` literals and arithmetic are modelled by `ℚ`.  Every numeric
  value appearing in a theorem below is a small integer, on which IEEE-754
  double arithmetic and comparison are exact, so the rational model agrees
  with the Rust semantics at every input a theorem mentions.
* Rust `String` payloads are kept as their UTF-8 byte lists (`List Nat`);
  `str::from_utf8` is modelled by a genuine UTF-8 validity check.
* A Rust panic (failed `assert_eq!`, out-of-bounds index or slice,
  `todo!()`, `unreachable!()`) is a distinguished result constructor,
  never a Lean error: the embedding is total.
* Loops are driven by fuel.  In `scan_tokens` every loop iteration of the
  Rust code either advances `current` by at least one byte or repeats the
  same non-advancing iteration forever, so with fuel `source.length + 1`
  the `diverged` constructor is returned exactly when the Rust loop
  diverges.
-/

namespace Lox

/-- Token kinds, from `TokenType` in src/scanner.rs.  Constructor names
that clash with Lean keywords carry a trailing underscore. -/
inductive TokenType where
  | leftBracket
  | rightBracket
  | leftBrace
  | rightBrace
  | comma
  | dot
  | minus
  | plus
  | semicolon
  | star
  | endOfFile
  | bang
  | notEqual
  | equal
  | assign
  | lessThan
  | lessThanOrEqual
  | greaterThan
  | greaterThanOrEqual
  | slash
  | string (s : List Nat)
  | number (n : ℚ)
  | identifier (s : List Nat)
  | and_
  | class_
  | else_
  | false_
  | for_
  | fun_
  | if_
  | nil
  | or_
  | print
  | return_
  | super_
  | this_
  | true_
  | var_
  | while_
  deriving DecidableEq, Repr

/-- `Token` from src/scanner.rs: a kind together with its 1-based line. -/
structure Token where
  type : TokenType
  line : Nat
  deriving DecidableEq, Repr

/-- `ScanError` from src/scanner.rs.  The second constructor keeps the
source's spelling (`UnterimatedString`).  The `Utf8` variant's payload
(`std::str::Utf8Error`) carries no information the claims use, so it is
dropped. -/
inductive ScanError where
  | unexpectedCharacter (character : Nat) (line : Nat)
  | unterimatedString (line : Nat)
  | utf8
  deriving DecidableEq, Repr

/-- The `Scanner` struct from src/scanner.rs. -/
structure Scanner where
  start : Nat
  current : Nat
  line : Nat
  errors : List ScanError
  tokens : List Token
  deriving DecidableEq, Repr

/-- `Scanner::new`. -/
def Scanner.new : Scanner :=
  { start := 0, current := 0, line := 1, errors := [], tokens := [] }

/-- `Scanner::advance`. -/
def Scanner.advance (st : Scanner) : Scanner :=
  { st with current := st.current + 1, start := st.current + 1 }

/-- `Scanner::add_token`: push a token at the current line, then advance. -/
def Scanner.add_token (st : Scanner) (t : TokenType) : Scanner :=
  Scanner.advance { st with tokens := st.tokens ++ [{ type := t, line := st.line }] }

/-- `Scanner::peek`: the byte one past `current`. -/
def Scanner.peek (st : Scanner) (source : List Nat) : Option Nat :=
  source.get? (st.current + 1)

/-- `Scanner::peek_next`: the byte two past `current`. -/
def Scanner.peek_next (st : Scanner) (source : List Nat) : Option Nat :=
  source.get? (st.current + 2)

/-- `Scanner::match` (spelled `r#match` in the source): consume the next
byte when it equals `value`. -/
def Scanner.matchNext (st : Scanner) (source : List Nat) (value : Nat) :
    Bool × Scanner :=
  match st.peek source with
  | some x => if value = x then (true, { st with current := st.current + 1 }) else (false, st)
  | none => (false, st)

/-- Rust slice `source[a..b]`, for the in-bounds, non-reversed case. -/
def slice (source : List Nat) (a b : Nat) : List Nat :=
  (source.drop a).take (b - a)

/-- `u8::is_ascii_digit`. -/
def isDigit (c : Nat) : Bool := 48 ≤ c && c ≤ 57

/-- `u8::is_ascii_alphabetic`. -/
def isAlpha (c : Nat) : Bool := (65 ≤ c && c ≤ 90) || (97 ≤ c && c ≤ 122)

/-- `u8::is_ascii_alphanumeric`. -/
def isAlnum (c : Nat) : Bool := isAlpha c || isDigit c

/-- A UTF-8 continuation byte (`0x80..=0xBF`). -/
def utf8Cont (c : Nat) : Bool := 128 ≤ c && c ≤ 191

/-- Validity of a byte list as UTF-8, as checked by `str::from_utf8`:
ASCII, and the well-formed 2-, 3- and 4-byte sequences excluding
surrogates and overlong or out-of-range encodings. -/
def utf8Valid : List Nat → Bool
  | [] => true
  | b :: rest =>
    if b ≤ 0x7F then utf8Valid rest
    else
      match rest with
      | [] => false
      | c1 :: rest1 =>
        if 0xC2 ≤ b && b ≤ 0xDF then utf8Cont c1 && utf8Valid rest1
        else
          match rest1 with
          | [] => false
          | c2 :: rest2 =>
            if b = 0xE0 then (0xA0 ≤ c1 && c1 ≤ 0xBF) && utf8Cont c2 && utf8Valid rest2
            else if (0xE1 ≤ b && b ≤ 0xEC) || b = 0xEE || b = 0xEF then
              utf8Cont c1 && utf8Cont c2 && utf8Valid rest2
            else if b = 0xED then (0x80 ≤ c1 && c1 ≤ 0x9F) && utf8Cont c2 && utf8Valid rest2
            else
              match rest2 with
              | [] => false
              | c3 :: rest3 =>
                if b = 0xF0 then (0x90 ≤ c1 && c1 ≤ 0xBF) && utf8Cont c2 && utf8Cont c3 && utf8Valid rest3
                else if 0xF1 ≤ b && b ≤ 0xF3 then
                  utf8Cont c1 && utf8Cont c2 && utf8Cont c3 && utf8Valid rest3
                else if b = 0xF4 then
                  (0x80 ≤ c1 && c1 ≤ 0x8F) && utf8Cont c2 && utf8Cont c3 && utf8Valid rest3
                else false

/-- The keyword table (`KEYWORDS` in src/scanner.rs), keyed by the
keyword's UTF-8 bytes. -/
def keywords : List (List Nat × TokenType) :=
  [([97, 110, 100], .and_),                -- and
   ([99, 108, 97, 115, 115], .class_),     -- class
   ([101, 108, 115, 101], .else_),         -- else
   ([102, 97, 108, 115, 101], .false_),    -- false
   ([102, 111, 114], .for_),               -- for
   ([102, 117, 110], .fun_),               -- fun
   ([105, 102], .if_),                     -- if
   ([110, 105, 108], .nil),                -- nil
   ([111, 114], .or_),                     -- or
   ([112, 114, 105, 110, 116], .print),    -- print
   ([114, 101, 116, 117, 114, 110], .return_),  -- return
   ([115, 117, 112, 101, 114], .super_),   -- super
   ([116, 104, 105, 115], .this_),         -- this
   ([116, 114, 117, 101], .true_),         -- true
   ([118, 97, 114], .var_),                -- var
   ([119, 104, 105, 108, 101], .while_)]   -- while

/-- `KEYWORDS.get`. -/
def keywordLookup (s : List Nat) : Option TokenType :=
  (keywords.find? (fun p => p.1 = s)).map (·.2)

/-- Digits to a natural number, most significant first. -/
def natOfDigits (ds : List Nat) : Nat :=
  ds.foldl (fun a d => a * 10 + (d - 48)) 0

/-- `str::parse::<f64>` on the number grammar the scanner matches
(digits, optionally a dot and digits), modelled exactly over `ℚ`. -/
def parseNumber (text : List Nat) : ℚ :=
  let intD := text.takeWhile isDigit
  let rest := text.drop intD.length
  match rest with
  | 46 :: frac => (natOfDigits intD : ℚ) + (natOfDigits frac : ℚ) / ((10 : ℚ) ^ frac.length)
  | _ => (natOfDigits intD : ℚ)

/-!
The scanner's four inner `while` loops advance `current` by one per
iteration, and an iteration runs only when a byte strictly past
`current` exists, so from any state a loop runs at most
`source.length` iterations.  Each loop is therefore written with a
structural fuel argument, always called with `source.length`: the
fuel-zero base case (which returns the state unchanged, exactly what
the Rust loop does when no byte remains) is unreachable.
-/

/-- The comment loop in `Scanner::scan_tokens`' `/` arm: skip up to (not
including) the next newline or end of input. -/
def commentLoop (source : List Nat) : Nat → Scanner → Scanner
  | 0, st => st
  | fuel + 1, st =>
    match st.peek source with
    | some p =>
      if p = 10 then st
      else commentLoop source fuel { st with current := st.current + 1 }
    | none => st

/-- The digit loop in `Scanner::handle_number`. -/
def digitLoop (source : List Nat) : Nat → Scanner → Scanner
  | 0, st => st
  | fuel + 1, st =>
    match st.peek source with
    | some c =>
      if isDigit c then digitLoop source fuel { st with current := st.current + 1 }
      else st
    | none => st

/-- The identifier loop in `Scanner::handle_identifier`. -/
def identLoop (source : List Nat) : Nat → Scanner → Scanner
  | 0, st => st
  | fuel + 1, st =>
    match st.peek source with
    | some c =>
      if isAlnum c || c = 95 then identLoop source fuel { st with current := st.current + 1 }
      else st
    | none => st

/-- The scan loop in `Scanner::handle_string`: advance while a byte
remains, counting newlines, and stop just after moving onto a `"`. -/
def stringLoop (source : List Nat) : Nat → Scanner → Scanner
  | 0, st => st
  | fuel + 1, st =>
    match st.peek source with
    | some c =>
      let st' : Scanner :=
        { st with
          current := st.current + 1
          line := if c = 10 then st.line + 1 else st.line }
      if c = 34 then st' else stringLoop source fuel st'
    | none => st

/-- `Scanner::handle_number`.  The matched text is always ASCII digits
and at most one dot, so the `from_utf8` check is kept but its error
branch (which pushes a `Utf8` error and does not advance) is
unreachable in context. -/
def handle_number (source : List Nat) (st : Scanner) : Scanner :=
  let st1 := digitLoop source source.length st
  let st2 :=
    if st1.peek source = some 46 && (st1.peek_next source).any isDigit
    then { st1 with current := st1.current + 1 }
    else st1
  let st3 := digitLoop source source.length st2
  let text := slice source st3.start (st3.current + 1)
  if utf8Valid text then st3.add_token (.number (parseNumber text))
  else { st3 with errors := st3.errors ++ [.utf8] }

/-- `Scanner::handle_identifier`.  The matched text is ASCII, so the
source's `from_utf8(..).unwrap()` cannot fail and is not modelled. -/
def handle_identifier (source : List Nat) (st : Scanner) : Scanner :=
  let st1 := identLoop source source.length st
  let text := slice source st1.start (st1.current + 1)
  match keywordLookup text with
  | some t => st1.add_token t
  | none => st1.add_token (.identifier text)

/-- `Scanner::handle_string`.  Returns `none` for the Rust panic: the
slice `source[start + 1..current]` panics when `start + 1 > current`,
which happens exactly when the opening quote is the last byte of the
input (the loop body never ran, so `current = start`). -/
def handle_string (source : List Nat) (st : Scanner) : Option Scanner :=
  let st1 := stringLoop source source.length st
  let st2 :=
    if (st1.peek source).isNone
    then { st1 with errors := st1.errors ++ [.unterimatedString st1.line] }
    else st1
  if st2.start + 1 ≤ st2.current then
    let body := slice source (st2.start + 1) st2.current
    let st3 :=
      if utf8Valid body then st2.add_token (.string body)
      else { st2 with errors := st2.errors ++ [.utf8] }
    some st3.advance
  else none

/-- One iteration of the dispatch `match` in `Scanner::scan_tokens`,
for the byte `c` at index `current`.  `none` is a Rust panic. -/
def scanStep (source : List Nat) (st : Scanner) (c : Nat) : Option Scanner :=
  if c = 40 then some (st.add_token .leftBracket)            -- (
  else if c = 41 then some (st.add_token .rightBracket)      -- )
  else if c = 123 then some (st.add_token .leftBrace)
  else if c = 125 then some (st.add_token .rightBrace)
  else if c = 44 then some (st.add_token .comma)             -- ,
  else if c = 46 then some (st.add_token .dot)               -- .
  else if c = 45 then some (st.add_token .minus)             -- -
  else if c = 43 then some (st.add_token .plus)              -- +
  else if c = 59 then some (st.add_token .semicolon)         -- ;
  else if c = 42 then some (st.add_token .star)              -- *
  else if c = 33 then                                        -- !
    let (m, st') := st.matchNext source 61
    some (st'.add_token (if m then .notEqual else .bang))
  else if c = 61 then                                        -- =
    let (m, st') := st.matchNext source 61
    some (st'.add_token (if m then .equal else .assign))
  else if c = 60 then                                        -- <
    let (m, st') := st.matchNext source 61
    some (st'.add_token (if m then .lessThanOrEqual else .lessThan))
  else if c = 62 then                                        -- >
    let (m, st') := st.matchNext source 61
    some (st'.add_token (if m then .greaterThanOrEqual else .greaterThan))
  else if c = 47 then                                        -- /
    let (m, st') := st.matchNext source 47
    if m then some (commentLoop source source.length st').advance
    else some (st'.add_token .slash)
  else if c = 34 then handle_string source st                -- "
  else if isDigit c then some (handle_number source st)
  else if isAlpha c || c = 95 then some (handle_identifier source st)
  else if c = 32 || c = 13 || c = 9 then some st.advance     -- space, \r, \t
  else if c = 10 then some (Scanner.advance { st with line := st.line + 1 })
  else
    some { st with
      errors := st.errors ++ [.unexpectedCharacter c st.line]
      current := st.current + 1
      start := st.current + 1 }

/-- Outcome of the scanner's main loop. -/
inductive ScanOutcome where
  | done (st : Scanner)
  | panicked
  | diverged
  deriving DecidableEq, Repr

/-- The `while self.current < source.len()` loop of
`Scanner::scan_tokens`, fuelled.  Every Rust iteration either advances
`current` or repeats a non-advancing iteration forever, so with fuel
`source.length + 1` the value `diverged` coincides with divergence of
the Rust loop. -/
def scanLoop (source : List Nat) : Nat → Scanner → ScanOutcome
  | 0, st => if st.current < source.length then .diverged else .done st
  | fuel + 1, st =>
    match source.get? st.current with
    | none => .done st
    | some c =>
      match scanStep source st c with
      | some st' => scanLoop source fuel st'
      | none => .panicked

/-- Result of `scan_tokens`. -/
inductive ScanResult where
  | ok (tokens : List Token)
  | error (errors : List ScanError)
  | panicked
  | diverged
  deriving DecidableEq, Repr

/-- `scan_tokens` from src/scanner.rs: run the loop, append the
end-of-file token, and return the errors when any were recorded,
otherwise the tokens. -/
def scan_tokens (source : List Nat) : ScanResult :=
  match scanLoop source (source.length + 1) Scanner.new with
  | .done st =>
    let st' : Scanner := { st with tokens := st.tokens ++ [{ type := .endOfFile, line := st.line }] }
    if st'.errors = [] then .ok st'.tokens else .error st'.errors
  | .panicked => .panicked
  | .diverged => .diverged

/-! ## Parser (src/parser.rs) -/

/-- `Expr` from src/parser.rs.  Every variant of the Rust enum is kept:
the evaluator has a catch-all `unreachable!()` over the ones the
expression parser never builds. -/
inductive Expr where
  | assign (name : TokenType) (value : Expr)
  | binary (left : Expr) (operator : TokenType) (right : Expr)
  | call (callee : Expr) (paren : TokenType) (arguments : List Expr)
  | get_ (object : Expr) (name : TokenType)
  | grouping (expression : Expr)
  | literal (value : TokenType)
  | logical (left : Expr) (operator : TokenType) (right : Expr)
  | set_ (object : Expr) (name : TokenType) (value : Expr)
  | super_ (keyword : TokenType) (method : TokenType)
  | this_ (keyword : TokenType)
  | unary (operator : TokenType) (right : Expr)
  | variable (name : TokenType)

/-- Constructor index of a `TokenType`, standing in for
`std::mem::discriminant`: two token types compare equal under `r#match`
exactly when their discriminants agree, payloads ignored. -/
def TokenType.discrim : TokenType → Nat
  | .leftBracket => 0
  | .rightBracket => 1
  | .leftBrace => 2
  | .rightBrace => 3
  | .comma => 4
  | .dot => 5
  | .minus => 6
  | .plus => 7
  | .semicolon => 8
  | .star => 9
  | .endOfFile => 10
  | .bang => 11
  | .notEqual => 12
  | .equal => 13
  | .assign => 14
  | .lessThan => 15
  | .lessThanOrEqual => 16
  | .greaterThan => 17
  | .greaterThanOrEqual => 18
  | .slash => 19
  | .string _ => 20
  | .number _ => 21
  | .identifier _ => 22
  | .and_ => 23
  | .class_ => 24
  | .else_ => 25
  | .false_ => 26
  | .for_ => 27
  | .fun_ => 28
  | .if_ => 29
  | .nil => 30
  | .or_ => 31
  | .print => 32
  | .return_ => 33
  | .super_ => 34
  | .this_ => 35
  | .true_ => 36
  | .var_ => 37
  | .while_ => 38

/-- Result of a parsing function: the parsed expression and the new
`current` index, a `ParseError`, a Rust panic, or fuel exhaustion
(`diverged`; the Rust parser always terminates, so with ample fuel this
constructor is never produced). -/
inductive ParseRes where
  | ok (e : Expr) (next : Nat)
  | error
  | panic
  | diverged

/-- `Parser::match` (spelled `r#match`): test `tokens[current]`'s
discriminant against each listed kind, consuming it on a hit.  `none` is
the Rust index-out-of-bounds panic. -/
def matchTok (tokens : List Token) (current : Nat) (types : List TokenType) :
    Option (Bool × Nat) :=
  match tokens.get? current with
  | none => none
  | some t =>
    if types.any (fun u => u.discrim = t.type.discrim)
    then some (true, current + 1)
    else some (false, current)

mutual

/-- `Parser::expression`. -/
def expression (tokens : List Token) (current : Nat) (fuel : Nat) : ParseRes :=
  match fuel with
  | 0 => .diverged
  | f + 1 => equality tokens current f
termination_by structural fuel

/-- `Parser::equality`. -/
def equality (tokens : List Token) (current : Nat) (fuel : Nat) : ParseRes :=
  match fuel with
  | 0 => .diverged
  | f + 1 =>
    match comparison tokens current f with
    | .ok e next => equalityLoop tokens e next f
    | r => r
termination_by structural fuel

/-- The `while` loop of `Parser::equality`. -/
def equalityLoop (tokens : List Token) (e : Expr) (current : Nat) (fuel : Nat) : ParseRes :=
  match fuel with
  | 0 => .diverged
  | f + 1 =>
    match matchTok tokens current [.notEqual, .equal] with
    | none => .panic
    | some (true, cur) =>
      match tokens.get? (cur - 1) with
      | none => .panic
      | some op =>
        match comparison tokens cur f with
        | .ok right next => equalityLoop tokens (.binary e op.type right) next f
        | r => r
    | some (false, cur) => .ok e cur
termination_by structural fuel

/-- `Parser::comparison`. -/
def comparison (tokens : List Token) (current : Nat) (fuel : Nat) : ParseRes :=
  match fuel with
  | 0 => .diverged
  | f + 1 =>
    match term tokens current f with
    | .ok e next => comparisonLoop tokens e next f
    | r => r
termination_by structural fuel

/-- The `while` loop of `Parser::comparison`. -/
def comparisonLoop (tokens : List Token) (e : Expr) (current : Nat) (fuel : Nat) : ParseRes :=
  match fuel with
  | 0 => .diverged
  | f + 1 =>
    match matchTok tokens current
        [.greaterThan, .greaterThanOrEqual, .lessThan, .lessThanOrEqual] with
    | none => .panic
    | some (true, cur) =>
      match tokens.get? (cur - 1) with
      | none => .panic
      | some op =>
        match term tokens cur f with
        | .ok right next => comparisonLoop tokens (.binary e op.type right) next f
        | r => r
    | some (false, cur) => .ok e cur
termination_by structural fuel

/-- `Parser::term`. -/
def term (tokens : List Token) (current : Nat) (fuel : Nat) : ParseRes :=
  match fuel with
  | 0 => .diverged
  | f + 1 =>
    match factor tokens current f with
    | .ok e next => termLoop tokens e next f
    | r => r
termination_by structural fuel

/-- The `while` loop of `Parser::term`. -/
def termLoop (tokens : List Token) (e : Expr) (current : Nat) (fuel : Nat) : ParseRes :=
  match fuel with
  | 0 => .diverged
  | f + 1 =>
    match matchTok tokens current [.minus, .plus] with
    | none => .panic
    | some (true, cur) =>
      match tokens.get? (cur - 1) with
      | none => .panic
      | some op =>
        match factor tokens cur f with
        | .ok right next => termLoop tokens (.binary e op.type right) next f
        | r => r
    | some (false, cur) => .ok e cur
termination_by structural fuel

/-- `Parser::factor`. -/
def factor (tokens : List Token) (current : Nat) (fuel : Nat) : ParseRes :=
  match fuel with
  | 0 => .diverged
  | f + 1 =>
    match unary tokens current f with
    | .ok e next => factorLoop tokens e next f
    | r => r
termination_by structural fuel

/-- The `while` loop of `Parser::factor`. -/
def factorLoop (tokens : List Token) (e : Expr) (current : Nat) (fuel : Nat) : ParseRes :=
  match fuel with
  | 0 => .diverged
  | f + 1 =>
    match matchTok tokens current [.slash, .star] with
    | none => .panic
    | some (true, cur) =>
      match tokens.get? (cur - 1) with
      | none => .panic
      | some op =>
        match unary tokens cur f with
        | .ok right next => factorLoop tokens (.binary e op.type right) next f
        | r => r
    | some (false, cur) => .ok e cur
termination_by structural fuel

/-- `Parser::unary`, exactly as written in src/parser.rs: the matched
operator kinds are `NotEqual` and `Equal` (the source's literal token
list), not `Bang` and `Minus`. -/
def unary (tokens : List Token) (current : Nat) (fuel : Nat) : ParseRes :=
  match fuel with
  | 0 => .diverged
  | f + 1 =>
    match matchTok tokens current [.notEqual, .equal] with
    | none => .panic
    | some (true, cur) =>
      match tokens.get? (cur - 1) with
      | none => .panic
      | some op =>
        match unary tokens cur f with
        | .ok right next => .ok (.unary op.type right) next
        | r => r
    | some (false, cur) => primary tokens cur f
termination_by structural fuel

/-- `Parser::primary`.  The grouping arm's `assert_eq!` on the closing
bracket becomes `panic` when the token there is not `RightBracket`, and
indexing past the token list is likewise `panic`. -/
def primary (tokens : List Token) (current : Nat) (fuel : Nat) : ParseRes :=
  match fuel with
  | 0 => .diverged
  | f + 1 =>
    match tokens.get? current with
    | none => .panic
    | some t =>
      match t.type with
      | .number v => .ok (.literal (.number v)) (current + 1)
      | .string s => .ok (.literal (.string s)) (current + 1)
      | .true_ => .ok (.literal .true_) (current + 1)
      | .false_ => .ok (.literal .false_) (current + 1)
      | .nil => .ok (.literal .nil) (current + 1)
      | .leftBracket =>
        match expression tokens (current + 1) f with
        | .ok e next =>
          match tokens.get? next with
          | none => .panic
          | some t2 =>
            if t2.type = .rightBracket then .ok (.grouping e) (next + 1)
            else .panic
        | r => r
      | _ => .error
termination_by structural fuel

end

/-- Entry point for parsing one expression: `Parser::expression` started
at token 0, with fuel ample for any terminating run.  (The repository's
public `parse` function parses statements and immediately panics via
`todo!()`; the expression pipeline of the spec corresponds to
`Parser::expression`.) -/
def parseExpression (tokens : List Token) : ParseRes :=
  expression tokens 0 (10 * (tokens.length + 1))

/-- The repository's public `parse` (src/parser.rs): it loops pushing
`statement()?`, and `Parser::statement` is `todo!()`, so it panics as
soon as there is at least one token. -/
def parse (tokens : List Token) : ParseRes :=
  if tokens.length = 0 then .error else .panic

/-! ## Evaluator (src/interpreter.rs) -/

/-- `Value` from src/interpreter.rs, with `f64` modelled by `ℚ` and
`String` by its UTF-8 bytes. -/
inductive Value where
  | nil
  | bool (b : Bool)
  | number (n : ℚ)
  | string (s : List Nat)
  deriving DecidableEq, Repr

/-- `Value::truthy`: `Bool` values unchanged, `Nil` false, all else true. -/
def Value.truthy : Value → Value
  | b@(.bool _) => b
  | .nil => .bool false
  | _ => .bool true

/-- `Value::equals`: structural equality within a kind, `Bool(false)`
across kinds. -/
def Value.equals : Value → Value → Value
  | .nil, .nil => .bool true
  | .bool a, .bool b => .bool (a = b)
  | .number a, .number b => .bool (a = b)
  | .string a, .string b => .bool (a = b)
  | _, _ => .bool false

/-- Result of `interpret`: `Ok(Value)`, `Err(Error::Type)`, or a Rust
panic from one of the `unreachable!()` arms. -/
inductive IResult where
  | ok (v : Value)
  | typeError
  | panic
  deriving DecidableEq, Repr

/-- `interpret` from src/interpreter.rs: post-order evaluation of an
expression tree. -/
def interpret : Expr → IResult
  | .literal value =>
    match value with
    | .number v => .ok (.number v)
    | .string s => .ok (.string s)
    | .true_ => .ok (.bool true)
    | .false_ => .ok (.bool false)
    | .nil => .ok .nil
    | _ => .panic
  | .grouping e => interpret e
  | .unary op right =>
    match interpret right with
    | .ok r =>
      match op with
      | .minus =>
        match r with
        | .number v => .ok (.number (-v))
        | _ => .typeError
      | .bang =>
        match r.truthy with
        | .bool v => .ok (.bool (!v))
        | _ => .typeError
      | _ => .panic
    | r => r
  | .binary left op right =>
    match interpret left with
    | .ok l =>
      match interpret right with
      | .ok r =>
        match op with
        | .minus =>
          match l, r with
          | .number a, .number b => .ok (.number (a - b))
          | _, _ => .typeError
        | .slash =>
          match l, r with
          | .number a, .number b => .ok (.number (a / b))
          | _, _ => .typeError
        | .star =>
          match l, r with
          | .number a, .number b => .ok (.number (a * b))
          | _, _ => .typeError
        | .plus =>
          match l, r with
          | .number a, .number b => .ok (.number (a + b))
          | .string a, .string b => .ok (.string (a ++ b))
          | _, _ => .typeError
        | .greaterThan =>
          match l, r with
          | .number a, .number b => .ok (.bool (b < a))
          | _, _ => .typeError
        | .greaterThanOrEqual =>
          match l, r with
          | .number a, .number b => .ok (.bool (b ≤ a))
          | _, _ => .typeError
        | .lessThan =>
          match l, r with
          | .number a, .number b => .ok (.bool (a < b))
          | _, _ => .typeError
        | .lessThanOrEqual =>
          match l, r with
          | .number a, .number b => .ok (.bool (a ≤ b))
          | _, _ => .typeError
        | .equal => .ok (l.equals r)
        | .notEqual =>
          match l.equals r with
          | .bool b => .ok (.bool (!b))
          | _ => .panic
        | _ => .panic
      | r => r
    | l => l
  | _ => .panic

/-! ## Pipeline -/

/-- Result of scanning, parsing and evaluating one source buffer. -/
inductive RunResult where
  | value (v : Value)
  | typeError
  | parseError
  | scanError (errors : List ScanError)
  | panicked
  | diverged
  deriving DecidableEq, Repr

/-- The scan → parse-expression → evaluate pipeline over one source
buffer. -/
def run (source : List Nat) : RunResult :=
  match scan_tokens source with
  | .ok tokens =>
    match parseExpression tokens with
    | .ok e _ =>
      match interpret e with
      | .ok v => .value v
      | .typeError => .typeError
      | .panic => .panicked
    | .error => .parseError
    | .panic => .panicked
    | .diverged => .diverged
  | .error es => .scanError es
  | .panicked => .panicked
  | .diverged => .diverged

/-! ## Helper lemmas -/

/-- `Value::equals` decides structural equality of values: under the
rational model of `f64` (no NaN, where IEEE-754 equality on the values
in play coincides with `ℚ` equality), two values are `equals` exactly
when they have the same kind and equal payloads. -/
theorem equals_eq_decide (l r : Value) : l.equals r = .bool (decide (l = r)) := by
  cases l <;> cases r <;> simp [Value.equals]

/-- A list whose `n`-th element is `c` splits as that element followed
by the rest. -/
theorem get?_some_drop {l : List Nat} {n c : Nat} (h : l.get? n = some c) :
    l.drop n = c :: l.drop (n + 1) := by
  have hn : n < l.length := (List.get?_eq_some.mp h).1
  have hc : l[n] = c := by
    rw [List.get?_eq_getElem?, List.getElem?_eq_getElem hn] at h
    exact Option.some.inj h
  rw [List.drop_eq_getElem_cons hn, hc]

/-- The string-scanning loop touches only `current` and `line`. -/
theorem stringLoop_shape (source : List Nat) (fuel : Nat) (st : Scanner) :
    ∃ cur lin, stringLoop source fuel st = { st with current := cur, line := lin } := by
  induction fuel generalizing st with
  | zero => exact ⟨st.current, st.line, rfl⟩
  | succ f ih =>
    rw [stringLoop]
    cases hp : st.peek source with
    | none => exact ⟨st.current, st.line, rfl⟩
    | some c =>
      by_cases hc : c = 34
      · subst hc
        simp only [if_pos rfl]
        exact ⟨st.current + 1, _, rfl⟩
      · simp only [if_neg hc]
        exact ih _

/-- The string-scanning loop when no `"` remains: it consumes every
remaining byte, incrementing `line` once per newline among them. -/
theorem stringLoop_no_quote (source : List Nat) (fuel : Nat) (st : Scanner)
    (hfuel : (source.drop (st.current + 1)).length ≤ fuel)
    (hq : 34 ∉ source.drop (st.current + 1)) :
    stringLoop source fuel st =
      { st with
        current := st.current + (source.drop (st.current + 1)).length
        line := st.line + (source.drop (st.current + 1)).count 10 } := by
  induction fuel generalizing st with
  | zero =>
    have hnil : source.drop (st.current + 1) = [] := by
      cases hd : source.drop (st.current + 1) with
      | nil => rfl
      | cons a l => rw [hd] at hfuel; simp at hfuel
    rw [stringLoop, hnil]
    simp
  | succ f ih =>
    rw [stringLoop]
    cases hp : st.peek source with
    | none =>
      have hnil : source.drop (st.current + 1) = [] :=
        List.drop_eq_nil_of_le (List.get?_eq_none.mp hp)
      rw [hnil]
      simp
    | some c =>
      have hd : source.drop (st.current + 1) = c :: source.drop (st.current + 2) :=
        get?_some_drop hp
      have hc : c ≠ 34 := by
        intro hcontra
        exact hq (hd ▸ hcontra ▸ List.mem_cons_self c _)
      simp only [if_neg hc]
      have hlen2 : (source.drop (st.current + 2)).length ≤ f := by
        rw [hd] at hfuel
        simp only [List.length_cons] at hfuel
        omega
      have hq2 : 34 ∉ source.drop (st.current + 2) := by
        intro hmem
        exact hq (hd ▸ List.mem_cons_of_mem c hmem)
      have hih := ih { st with current := st.current + 1,
                               line := if c = 10 then st.line + 1 else st.line }
        hlen2 hq2
      rw [hih]
      rw [Scanner.mk.injEq]
      have e2 : st.current + 1 + 1 = st.current + 2 := rfl
      refine ⟨rfl, ?_, ?_, rfl, rfl⟩
      · simp only [e2]
        rw [hd]
        simp only [List.length_cons]
        omega
      · simp only [e2]
        rw [hd]
        rcases eq_or_ne c 10 with h10 | h10 <;>
          simp [h10, List.count_cons] <;> omega

/-- The string-scanning loop when a `"` does remain: it stops just
after moving onto the first one, incrementing `line` once per newline
strictly before it. -/
theorem stringLoop_finds_quote (body : List Nat) (source tail : List Nat)
    (fuel : Nat) (st : Scanner)
    (hd : source.drop (st.current + 1) = body ++ 34 :: tail)
    (hq : 34 ∉ body)
    (hfuel : body.length + 1 ≤ fuel) :
    stringLoop source fuel st =
      { st with
        current := st.current + body.length + 1
        line := st.line + body.count 10 } := by
  induction body generalizing fuel st with
  | nil =>
    cases fuel with
    | zero => simp at hfuel
    | succ f =>
      have hp : st.peek source = some 34 := by
        have h0 : (source.drop (st.current + 1)).get? 0 = some 34 := by
          rw [hd]; rfl
        rw [List.get?_eq_getElem?, List.getElem?_drop] at h0
        rw [Scanner.peek, List.get?_eq_getElem?]
        simpa using h0
      rw [stringLoop, hp]
      simp

  | cons c body' ih =>
    cases fuel with
    | zero => simp at hfuel
    | succ f =>
      have hp : st.peek source = some c := by
        have h0 : (source.drop (st.current + 1)).get? 0 = some c := by
          rw [hd]; rfl
        rw [List.get?_eq_getElem?, List.getElem?_drop] at h0
        rw [Scanner.peek, List.get?_eq_getElem?]
        simpa using h0
      have hc : c ≠ 34 := fun hcontra => hq (hcontra ▸ List.mem_cons_self c _)
      rw [stringLoop, hp]
      simp only [if_neg hc]
      have hd' : source.drop (st.current + 1 + 1) = body' ++ 34 :: tail := by
        have h1 := congrArg (List.drop 1) hd
        rw [List.drop_drop] at h1
        simpa using h1
      have hq' : 34 ∉ body' := fun hmem => hq (List.mem_cons_of_mem _ hmem)
      have hfuel' : body'.length + 1 ≤ f := by
        simp only [List.length_cons] at hfuel
        omega
      have hih := ih f
        { st with current := st.current + 1,
                  line := if c = 10 then st.line + 1 else st.line }
        hd' hq' hfuel'
      rw [hih]
      rw [Scanner.mk.injEq]
      refine ⟨rfl, by simp only [List.length_cons]; omega, ?_, rfl, rfl⟩
      rcases eq_or_ne c 10 with h10 | h10 <;>
        simp [h10, List.count_cons] <;> omega

/-- ASCII byte lists are valid UTF-8. -/
theorem utf8Valid_of_ascii (l : List Nat) (h : ∀ b ∈ l, b < 128) :
    utf8Valid l = true := by
  induction l with
  | nil => rfl
  | cons b rest ih =>
    have hb : b ≤ 0x7F := by
      have := h b (List.mem_cons_self b rest)
      omega
    rw [utf8Valid.eq_def]
    simp only [if_pos hb]
    exact ih fun x hx => h x (List.mem_cons_of_mem _ hx)

/-- The scanner's dispatch sends a `"` byte to `handle_string`. -/
theorem scanStep_quote (source : List Nat) (st : Scanner) :
    scanStep source st 34 = handle_string source st := by
  simp [scanStep]

/-- The scanner's main loop stops as soon as `current` is past the end
of the input. -/
theorem scanLoop_past_end (source : List Nat) (fuel : Nat) (st : Scanner)
    (h : source.length ≤ st.current) :
    scanLoop source (fuel + 1) st = .done st := by
  rw [scanLoop, List.get?_eq_none.mpr h]

/-- `handle_string` when no `"` remains after the opening quote and at
least one byte does: the whole remaining input is consumed, exactly one
`UnterimatedString` error is recorded, carrying the line reached at end
of input, and a `String` token holding all but the last remaining byte
is still pushed. -/
theorem handle_string_no_quote (source : List Nat) (st : Scanner)
    (hsc : st.start = st.current)
    (hlt : st.current + 1 < source.length)
    (hq : 34 ∉ source.drop (st.current + 1))
    (hascii : ∀ b ∈ source.drop (st.current + 1), b < 128) :
    handle_string source st =
      some
        { start := source.length + 1
          current := source.length + 1
          line := st.line + (source.drop (st.current + 1)).count 10
          errors := st.errors ++
            [.unterimatedString (st.line + (source.drop (st.current + 1)).count 10)]
          tokens := st.tokens ++
            [{ type := .string ((source.drop (st.current + 1)).take
                  ((source.drop (st.current + 1)).length - 1)),
               line := st.line + (source.drop (st.current + 1)).count 10 }] } := by
  have hL : (source.drop (st.current + 1)).length = source.length - (st.current + 1) :=
    List.length_drop _ _
  have hL1 : 1 ≤ (source.drop (st.current + 1)).length := by omega
  have hloop := stringLoop_no_quote source source.length st (by omega) hq
  rw [handle_string, hloop]
  have hpeek : (source.get? (st.current + (source.drop (st.current + 1)).length + 1)) =
      (none : Option Nat) := by
    apply List.get?_eq_none.mpr
    omega
  simp only [Scanner.peek, hpeek, Option.isNone_none, if_true]
  have hle : st.start + 1 ≤ st.current + (source.drop (st.current + 1)).length := by omega
  rw [if_pos hle]
  have hslice : slice source (st.start + 1) (st.current + (source.drop (st.current + 1)).length) =
      (source.drop (st.current + 1)).take ((source.drop (st.current + 1)).length - 1) := by
    rw [slice, hsc]
    congr 1
    omega
  rw [hslice]
  have hva : utf8Valid ((source.drop (st.current + 1)).take
      ((source.drop (st.current + 1)).length - 1)) = true :=
    utf8Valid_of_ascii _ fun b hb => hascii b (List.take_subset _ _ hb)
  rw [if_pos hva]
  simp only [Scanner.add_token, Scanner.advance, Option.some.injEq, Scanner.mk.injEq]
  refine ⟨by omega, by omega, trivial, trivial, trivial⟩

/-- `handle_string` when the first `"` after the opening quote is the
final byte of the input: the string is complete, yet an
`UnterimatedString` error is recorded anyway (the byte after the
closing quote is peeked and absent), alongside the `String` token. -/
theorem handle_string_quote_at_end (source body : List Nat) (st : Scanner)
    (hsc : st.start = st.current)
    (hd : source.drop (st.current + 1) = body ++ [34])
    (hq : 34 ∉ body)
    (hascii : ∀ b ∈ body, b < 128) :
    handle_string source st =
      some
        { start := source.length + 1
          current := source.length + 1
          line := st.line + body.count 10
          errors := st.errors ++ [.unterimatedString (st.line + body.count 10)]
          tokens := st.tokens ++
            [{ type := .string body, line := st.line + body.count 10 }] } := by
  have hL : (source.drop (st.current + 1)).length = source.length - (st.current + 1) :=
    List.length_drop _ _
  have hlen : source.length = st.current + 1 + (body.length + 1) := by
    rw [hd] at hL
    simp only [List.length_append, List.length_cons, List.length_nil] at hL
    have hcur : st.current + 1 ≤ source.length := by
      by_contra hcon
      have : source.drop (st.current + 1) = [] := List.drop_eq_nil_of_le (by omega)
      rw [this] at hd
      exact absurd hd.symm (List.append_ne_nil_of_right_ne_nil _ (by simp))
    omega
  have hloop := stringLoop_finds_quote body source [] source.length st hd hq (by omega)
  rw [handle_string, hloop]
  have hpeek : (source.get? (st.current + body.length + 1 + 1)) = (none : Option Nat) := by
    apply List.get?_eq_none.mpr
    omega
  simp only [Scanner.peek, hpeek, Option.isNone_none, if_true]
  have hle : st.start + 1 ≤ st.current + body.length + 1 := by omega
  rw [if_pos hle]
  have hslice : slice source (st.start + 1) (st.current + body.length + 1) = body := by
    rw [slice, hsc]
    have harg : st.current + body.length + 1 - (st.current + 1) = body.length := by omega
    rw [harg]
    have : source.drop (st.current + 1) = body ++ [34] := hd
    rw [this]
    exact List.take_left _ _
  rw [hslice]
  rw [if_pos (utf8Valid_of_ascii body hascii)]
  simp only [Scanner.add_token, Scanner.advance, Option.some.injEq, Scanner.mk.injEq]
  refine ⟨by omega, by omega, trivial, trivial, trivial⟩

/-- The dispatch step on a byte that starts no token: it records an
`UnexpectedCharacter` carrying the byte and the current line, skips
exactly that byte, and leaves everything else alone. -/
theorem scanStep_unexpected (source : List Nat) (st : Scanner) (c : Nat)
    (hmem : c ∉ ([40, 41, 123, 125, 44, 46, 45, 43, 59, 42, 33, 61, 60, 62, 47, 34] : List Nat))
    (hdig : isDigit c = false)
    (halpha : isAlpha c = false)
    (h95 : c ≠ 95)
    (hws : c ∉ ([32, 13, 9, 10] : List Nat)) :
    scanStep source st c =
      some { st with
        errors := st.errors ++ [.unexpectedCharacter c st.line]
        current := st.current + 1
        start := st.current + 1 } := by
  simp only [List.mem_cons, List.not_mem_nil, or_false, not_or] at hmem hws
  obtain ⟨h1, h2, h3, h4, h5, h6, h7, h8, h9, h10, h11, h12, h13, h14, h15, h16⟩ := hmem
  obtain ⟨w1, w2, w3, w4⟩ := hws
  simp [scanStep, h1, h2, h3, h4, h5, h6, h7, h8, h9, h10, h11, h12, h13, h14, h15, h16,
    hdig, halpha, h95, w1, w2, w3, w4]

/-- One iteration of the scanner's main loop, when the dispatch
succeeds. -/
theorem scanLoop_step (source : List Nat) (fuel : Nat) (st : Scanner) (c : Nat)
    (st' : Scanner) (hc : source.get? st.current = some c)
    (hs : scanStep source st c = some st') :
    scanLoop source (fuel + 1) st = scanLoop source fuel st' := by
  simp only [scanLoop, hc, hs]

/-- One iteration of the scanner's main loop, when the dispatch
panics. -/
theorem scanLoop_panicked (source : List Nat) (fuel : Nat) (st : Scanner) (c : Nat)
    (hc : source.get? st.current = some c)
    (hs : scanStep source st c = none) :
    scanLoop source (fuel + 1) st = .panicked := by
  simp only [scanLoop, hc, hs]

/-! ## Claims -/

/-- C1 (code bug): a token stream that is valid under the expression
grammar (`-1`, i.e. `[Minus, Number(1), EndOfFile]`) is rejected with a
`ParseError` — `Parser::unary` matches `NotEqual`/`Equal` instead of
`Bang`/`Minus`, so a grammatically valid unary expression falls through
to `primary` and errors.  The same happens through the full pipeline on
the source bytes of `-1`. -/
theorem valid_unary_stream_is_rejected :
    parseExpression [⟨.minus, 1⟩, ⟨.number 1, 1⟩, ⟨.endOfFile, 1⟩] = .error ∧
    run [45, 49] = .parseError :=   -- "-1"
  ⟨rfl, by decide⟩

/-- C2 (code bug): `Parser::unary` does not implement
`unary → ("!" | "-") unary | primary`: on a leading `Bang` it falls to
`primary` and returns `ParseError`, while on a leading `NotEqual` it
happily builds `Unary(!=, ·)` — a node the interpreter's own
`unreachable!` arm rejects with a panic. -/
theorem unary_rule_matches_wrong_tokens :
    parseExpression [⟨.bang, 1⟩, ⟨.number 1, 1⟩, ⟨.endOfFile, 1⟩] = .error ∧
    parseExpression [⟨.notEqual, 1⟩, ⟨.number 1, 1⟩, ⟨.endOfFile, 1⟩] =
      .ok (.unary .notEqual (.literal (.number 1))) 2 ∧
    interpret (.unary .notEqual (.literal (.number 1))) = .panic :=
  ⟨rfl, rfl, rfl⟩

/-- C3 (code bug): a grouping without its closing `)` does not produce a
`ParseError`: the `assert_eq!` in `Parser::primary` fails and the
process panics, both at the token level (`( 1 + 2` then end of input)
and through the full pipeline. -/
theorem missing_close_paren_panics :
    parseExpression
      [⟨.leftBracket, 1⟩, ⟨.number 1, 1⟩, ⟨.plus, 1⟩, ⟨.number 2, 1⟩, ⟨.endOfFile, 1⟩] =
      .panic ∧
    run [40, 49, 32, 43, 32, 50] = .panicked :=   -- "(1 + 2"
  ⟨rfl, by decide⟩

/-- C4: precedence and left-associativity of the binary levels through
the full pipeline: `2 + 3 * 4` evaluates to 14, `(2 + 3) * 4` to 20,
and `8 - 4 - 2` to 2 (left fold). -/
theorem precedence_and_left_associativity :
    run [50, 32, 43, 32, 51, 32, 42, 32, 52] = .value (.number 14) ∧        -- "2 + 3 * 4"
    run [40, 50, 32, 43, 32, 51, 41, 32, 42, 32, 52] = .value (.number 20) ∧ -- "(2 + 3) * 4"
    run [56, 32, 45, 32, 52, 32, 45, 32, 50] = .value (.number 2) :=        -- "8 - 4 - 2"
  ⟨by with_unfolding_all rfl, by with_unfolding_all rfl, by with_unfolding_all rfl⟩

/-- C5: `Binary "+"` adds two numbers, concatenates two strings, and is
a `TypeError` on every other combination of operand kinds — no
coercion. -/
theorem plus_semantics (el er : Expr) (l r : Value)
    (hl : interpret el = .ok l) (hr : interpret er = .ok r) :
    interpret (.binary el .plus er) =
      match l, r with
      | .number a, .number b => .ok (.number (a + b))
      | .string a, .string b => .ok (.string (a ++ b))
      | _, _ => .typeError := by
  simp only [interpret, hl, hr]
  cases l <;> cases r <;> rfl

/-- Witness for C5 at concrete inputs: `1 + 2` is `Number 3`, a string
plus a number is a `TypeError`, and `"f" + "g"` concatenates. -/
theorem plus_semantics_witness :
    interpret (.binary (.literal (.number 1)) .plus (.literal (.number 2))) =
      .ok (.number (1 + 2)) ∧
    interpret (.binary (.literal (.string [102])) .plus (.literal (.number 1))) =
      .typeError ∧
    interpret (.binary (.literal (.string [102])) .plus (.literal (.string [103]))) =
      .ok (.string [102, 103]) :=
  ⟨plus_semantics (.literal (.number 1)) (.literal (.number 2))
      (.number 1) (.number 2) rfl rfl,
   plus_semantics (.literal (.string [102])) (.literal (.number 1))
      (.string [102]) (.number 1) rfl rfl,
   plus_semantics (.literal (.string [102])) (.literal (.string [103]))
      (.string [102]) (.string [103]) rfl rfl⟩

/-- C6: `Binary "=="` always succeeds and returns `Bool(true)` exactly
when the two operand values have the same kind and equal payloads
(numbers under the exact rational model of `f64`), `"!="` returns the
negation, and in particular `1 == "1"` is `false` while `nil == nil` is
`true`. -/
theorem equality_semantics :
    (∀ el er l r, interpret el = .ok l → interpret er = .ok r →
      interpret (.binary el .equal er) = .ok (.bool (decide (l = r))) ∧
      interpret (.binary el .notEqual er) = .ok (.bool (! decide (l = r)))) ∧
    interpret (.binary (.literal (.number 1)) .equal (.literal (.string [49]))) =
      .ok (.bool false) ∧    -- 1 == "1"
    interpret (.binary (.literal .nil) .equal (.literal .nil)) = .ok (.bool true) := by
  refine ⟨?_, by decide, by decide⟩
  intro el er l r hl hr
  constructor
  · simp only [interpret, hl, hr, equals_eq_decide]
  · simp only [interpret, hl, hr, equals_eq_decide]

/-- Witness for C6 at concrete inputs: `true == true` and
`true != true`. -/
theorem equality_semantics_witness :
    interpret (.binary (.literal .true_) .equal (.literal .true_)) = .ok (.bool true) ∧
    interpret (.binary (.literal .true_) .notEqual (.literal .true_)) = .ok (.bool false) := by
  have h := equality_semantics.1 (.literal .true_) (.literal .true_)
    (.bool true) (.bool true) rfl rfl
  exact ⟨by simpa using h.1, by simpa using h.2⟩

/-- C7: `Unary "!"` always succeeds and returns the negated truthiness
of its operand: `Bool(true)` exactly for `Nil` and `Bool(false)`;
`Number(0)` and the empty string are truthy. -/
theorem bang_truthiness :
    (∀ er v, interpret er = .ok v →
      interpret (.unary .bang er) =
        .ok (.bool (decide (v = .nil ∨ v = .bool false)))) ∧
    interpret (.unary .bang (.literal .nil)) = .ok (.bool true) ∧          -- !nil
    interpret (.unary .bang (.literal (.number 0))) = .ok (.bool false) ∧  -- !0
    interpret (.unary .bang (.literal (.string []))) = .ok (.bool false) := by
  refine ⟨?_, by decide, by decide, by decide⟩
  intro er v h
  simp only [interpret, h]
  cases v <;> simp [Value.truthy]

/-- Witness for C7 at a concrete input: `!false` evaluates to
`Bool(true)`. -/
theorem bang_truthiness_witness :
    interpret (.unary .bang (.literal .false_)) = .ok (.bool true) := by
  have h := bang_truthiness.1 (.literal .false_) (.bool false) rfl
  simpa using h

/-- C8 counterexample: the claim fails as stated.  Scanning `"a\nb`
(a string starting on line 1, unterminated on line 2) yields an
`UnterimatedString` error carrying line 2 — the line reached at end of
input, not the line the string began on.  And scanning a lone `"`
(end of input reached immediately inside the string) yields no error at
all: the scanner panics on the reversed slice `source[start+1..current]`. -/
theorem unterminated_string_line_counterexample :
    scan_tokens [34, 97, 10, 98] = .error [.unterimatedString 2] ∧
    scan_tokens [34] = .panicked :=
  ⟨by decide, by decide⟩

/-- C8 (amended): whenever end of input is reached inside a string
literal with at least one byte after the opening quote, exactly one
`UnterimatedString` error is recorded by `handle_string`, and the line
it carries is the line reached at end of input (the start line plus the
newlines inside the string); at the top level, scanning an input that is
a single unterminated string yields exactly that one error, and scanning
`"abc` yields one error for line 1.  When the opening quote is the very
last byte of the input the scanner panics instead of reporting. -/
theorem unterminated_string_amended :
    (∀ (source : List Nat) (st : Scanner),
      st.start = st.current →
      st.current + 1 < source.length →
      34 ∉ source.drop (st.current + 1) →
      (∀ b ∈ source.drop (st.current + 1), b < 128) →
      ∃ st', handle_string source st = some st' ∧
        st'.errors = st.errors ++
          [.unterimatedString (st.line + (source.drop (st.current + 1)).count 10)]) ∧
    (∀ body : List Nat, body ≠ [] → 34 ∉ body → (∀ b ∈ body, b < 128) →
      scan_tokens (34 :: body) = .error [.unterimatedString (1 + body.count 10)]) ∧
    scan_tokens [34, 97, 98, 99] = .error [.unterimatedString 1] ∧
    scan_tokens [34] = .panicked := by
  have hgen : ∀ (source : List Nat) (st : Scanner),
      st.start = st.current →
      st.current + 1 < source.length →
      34 ∉ source.drop (st.current + 1) →
      (∀ b ∈ source.drop (st.current + 1), b < 128) →
      ∃ st', handle_string source st = some st' ∧
        st'.errors = st.errors ++
          [.unterimatedString (st.line + (source.drop (st.current + 1)).count 10)] := by
    intro source st hsc hlt hq hascii
    exact ⟨_, handle_string_no_quote source st hsc hlt hq hascii, rfl⟩
  refine ⟨hgen, ?_, by decide, by decide⟩
  intro body hne hq hascii
  have hlen1 : 1 ≤ body.length := List.length_pos.mpr hne
  have hhs := handle_string_no_quote (34 :: body) Scanner.new rfl
    (by simp [Scanner.new]; omega)
    (by exact hq) (by exact hascii)
  have hstep := scanLoop_step (34 :: body) ((34 :: body).length) Scanner.new 34 _
    rfl (by rw [scanStep_quote]; exact hhs)
  have hpast := scanLoop_past_end (34 :: body) body.length
    { start := (34 :: body).length + 1
      current := (34 :: body).length + 1
      line := Scanner.new.line + (((34 :: body).drop (Scanner.new.current + 1)).count 10)
      errors := Scanner.new.errors ++
        [.unterimatedString (Scanner.new.line +
          (((34 :: body).drop (Scanner.new.current + 1)).count 10))]
      tokens := Scanner.new.tokens ++
        [{ type := .string (((34 :: body).drop (Scanner.new.current + 1)).take
              (((34 :: body).drop (Scanner.new.current + 1)).length - 1)),
           line := Scanner.new.line +
             (((34 :: body).drop (Scanner.new.current + 1)).count 10) }] }
    (by simp)
  rw [scan_tokens, hstep]
  rw [show (34 :: body).length = body.length + 1 from by simp] at hpast ⊢
  rw [hpast]
  simp [Scanner.new]

/-- Witness for C8 (amended) at concrete inputs: the unterminated
string `"x` produces exactly one error on line 1 both at the
`handle_string` level and at the `scan_tokens` level. -/
theorem unterminated_string_amended_witness :
    (∃ st', handle_string [34, 120] Scanner.new = some st' ∧
      st'.errors = Scanner.new.errors ++
        [.unterimatedString (Scanner.new.line +
          (([34, 120].drop (Scanner.new.current + 1)).count 10))]) ∧
    scan_tokens (34 :: [120]) = .error [.unterimatedString (1 + List.count 10 [120])] := by
  constructor
  · exact unterminated_string_amended.1 [34, 120] Scanner.new rfl (by decide)
      (by decide) (by decide)
  · exact unterminated_string_amended.2.1 [120] (by decide) (by decide) (by decide)

/-- C9: lexical errors are accumulated, not fatal.  (i) On a byte that
starts no token, one loop iteration records an `UnexpectedCharacter`
carrying that byte and the current line, skips exactly that byte, and
continues scanning.  (ii) Scanning `@ # $` yields exactly three such
errors, each on line 1.  (iii) Whenever the loop finishes, the result
is the error collection when any error was recorded, and the token list
otherwise. -/
theorem lexical_error_accumulation :
    (∀ (source : List Nat) (fuel : Nat) (st : Scanner) (c : Nat),
      source.get? st.current = some c →
      c ∉ ([40, 41, 123, 125, 44, 46, 45, 43, 59, 42, 33, 61, 60, 62, 47, 34] : List Nat) →
      isDigit c = false → isAlpha c = false → c ≠ 95 →
      c ∉ ([32, 13, 9, 10] : List Nat) →
      scanLoop source (fuel + 1) st =
        scanLoop source fuel
          { st with
            errors := st.errors ++ [.unexpectedCharacter c st.line]
            current := st.current + 1
            start := st.current + 1 }) ∧
    scan_tokens [64, 32, 35, 32, 36] =
      .error [.unexpectedCharacter 64 1, .unexpectedCharacter 35 1,
              .unexpectedCharacter 36 1] ∧
    (∀ (source : List Nat) (st : Scanner),
      scanLoop source (source.length + 1) Scanner.new = .done st →
      scan_tokens source =
        if st.errors = [] then .ok (st.tokens ++ [{ type := .endOfFile, line := st.line }])
        else .error st.errors) := by
  refine ⟨?_, by decide, ?_⟩
  · intro source fuel st c hc hmem hdig halpha h95 hws
    exact scanLoop_step source fuel st c _ hc
      (scanStep_unexpected source st c hmem hdig halpha h95 hws)
  · intro source st h
    rw [scan_tokens, h]

/-- Witness for C9 at concrete inputs: one iteration on `@` records the
error and moves on; the empty input scans to just the end-of-file
token. -/
theorem lexical_error_accumulation_witness :
    scanLoop [64] 1 Scanner.new =
      scanLoop [64] 0
        { Scanner.new with
          errors := Scanner.new.errors ++ [.unexpectedCharacter 64 Scanner.new.line]
          current := Scanner.new.current + 1
          start := Scanner.new.current + 1 } ∧
    scan_tokens [] =
      (if Scanner.new.errors = [] then
        .ok (Scanner.new.tokens ++ [{ type := .endOfFile, line := Scanner.new.line }])
      else .error Scanner.new.errors) := by
  constructor
  · exact lexical_error_accumulation.1 [64] 0 Scanner.new 64 rfl (by decide)
      (by decide) (by decide) (by decide) (by decide)
  · exact lexical_error_accumulation.2.2 [] Scanner.new (by decide)

/-- C10: a string whose closing `"` is the last input byte is rejected.
(i) For every such single-string input, `scan_tokens` returns exactly
one `UnterimatedString` error instead of succeeding.  (ii) In general a
string scan leaves the error list untouched only when a byte exists
past the position where its scan loop stopped (the closing quote).
(iii) Concretely, `"foo"` (closing quote last) is rejected while
`"foo"` followed by a space scans to a `String` token. -/
theorem closing_quote_last_byte_rejected :
    (∀ body : List Nat, 34 ∉ body → (∀ b ∈ body, b < 128) →
      scan_tokens (34 :: body ++ [34]) = .error [.unterimatedString (1 + body.count 10)]) ∧
    (∀ (source : List Nat) (st st' : Scanner),
      handle_string source st = some st' → st'.errors = st.errors →
      (stringLoop source source.length st).current + 1 < source.length) ∧
    scan_tokens [34, 102, 111, 111, 34] = .error [.unterimatedString 1] ∧
    scan_tokens [34, 102, 111, 111, 34, 32] =
      .ok [{ type := .string [102, 111, 111], line := 1 },
           { type := .endOfFile, line := 1 }] := by
  refine ⟨?_, ?_, by decide, by decide⟩
  · intro body hq hascii
    have hhs := handle_string_quote_at_end (34 :: body ++ [34]) body Scanner.new rfl
      (by simp [Scanner.new]) hq hascii
    have hstep := scanLoop_step (34 :: body ++ [34]) ((34 :: body ++ [34]).length)
      Scanner.new 34 _ (by simp [Scanner.new]) (by rw [scanStep_quote]; exact hhs)
    have hpast := scanLoop_past_end (34 :: body ++ [34]) (body.length + 1)
      { start := (34 :: body ++ [34]).length + 1
        current := (34 :: body ++ [34]).length + 1
        line := Scanner.new.line + body.count 10
        errors := Scanner.new.errors ++
          [.unterimatedString (Scanner.new.line + body.count 10)]
        tokens := Scanner.new.tokens ++
          [{ type := .string body, line := Scanner.new.line + body.count 10 }] }
      (by simp)
    rw [scan_tokens]
    simp only [List.length_cons, List.length_append, List.length_nil, Nat.zero_add]
      at hstep hpast ⊢
    rw [hstep, hpast]
    simp [Scanner.new]
  · intro source st st' hsome heq
    obtain ⟨cur, lin, hsh⟩ := stringLoop_shape source source.length st
    rw [hsh]
    show cur + 1 < source.length
    by_contra hge
    push_neg at hge
    have hpeek : source.get? (cur + 1) = none := List.get?_eq_none.mpr hge
    rw [handle_string, hsh] at hsome
    simp only [Scanner.peek, hpeek, Option.isNone_none, if_true] at hsome
    split at hsome
    · split at hsome
      · rw [Option.some.injEq] at hsome
        have herr : st'.errors = st.errors ++ [.unterimatedString lin] := by
          rw [← hsome]
          simp [Scanner.advance, Scanner.add_token]
        rw [heq] at herr
        have := congrArg List.length herr
        simp at this
      · rw [Option.some.injEq] at hsome
        have herr : st'.errors =
            st.errors ++ [.unterimatedString lin] ++ [.utf8] := by
          rw [← hsome]
          simp [Scanner.advance]
        rw [heq] at herr
        have := congrArg List.length herr
        simp at this
    · exact Option.noConfusion hsome

/-- Witness for C10 at concrete inputs: `"k"` (closing quote last) is
rejected with one `UnterimatedString`, and a successfully scanned
string (`"f"` followed by a space) indeed has a byte after its closing
quote. -/
theorem closing_quote_last_byte_rejected_witness :
    scan_tokens (34 :: [107] ++ [34]) =
      .error [.unterimatedString (1 + List.count 10 [107])] ∧
    (stringLoop [34, 102, 34, 32] [34, 102, 34, 32].length Scanner.new).current + 1 <
      [34, 102, 34, 32].length := by
  constructor
  · exact closing_quote_last_byte_rejected.1 [107] (by decide) (by decide)
  · exact closing_quote_last_byte_rejected.2.1 [34, 102, 34, 32] Scanner.new _ rfl rfl

end Lox

